import Mathlib

/-!
Verification of the connectors control plane (`connectors/byoc.py`) and the
Jira source pipeline (`connectors/sources/jira.py`).

Index documents are loosely typed JSON mappings; we embed them as `JValue`.
Helper classes that live outside the repository snapshot (`ESDocument.get`
from `connectors/es.py`, `DataSourceConfiguration` from `connectors/source.py`,
`FilteringValidationState` from `connectors/filtering/validation.py`,
`next_run` from `connectors/utils.py`) are modelled from the spec where noted.
-/

/-- A JSON value, as stored in the control-plane indices. `null` doubles as
Python's `None`. -/
inductive JValue where
  | null
  | bool (b : Bool)
  | str (s : String)
  | num (n : Int)
  | arr (xs : List JValue)
  | obj (fields : List (String × JValue))

/-- Python truthiness of a JSON value (`if value:`). -/
def JValue.truthy : JValue → Bool
  | .null => false
  | .bool b => b
  | .str s => !s.isEmpty
  | .num n => n != 0
  | .arr xs => !xs.isEmpty
  | .obj fs => !fs.isEmpty

/-- `value is None` in Python. -/
def JValue.isNull : JValue → Bool
  | .null => true
  | _ => false

/-- First-match association lookup, the evaluation of `dict[k]` / `dict.get(k)`
on a JSON object's field list (JSON objects carry each key once). -/
def alookup (k : String) : List (String × JValue) → Option JValue
  | [] => none
  | (k', v) :: fs => if k' = k then some v else alookup k fs

/-- Python `dict` assignment `d[k] = v`: replace the value under `k` if the key
is present, otherwise append the new key. -/
def aset (d : List (String × JValue)) (k : String) (v : JValue) :
    List (String × JValue) :=
  if d.any (fun p => p.1 = k) then
    d.map (fun p => if p.1 = k then (k, v) else p)
  else d ++ [(k, v)]

/-- Python `d.update(e)`: assign every pair of `e` into `d`, left to right. -/
def aupdate (d e : List (String × JValue)) : List (String × JValue) :=
  e.foldl (fun acc p => aset acc p.1 p.2) d

/-- `k in d` on a patch dictionary. -/
def hasKey (d : List (String × JValue)) (k : String) : Bool :=
  d.any (fun p => p.1 = k)

/-- Modelled from the spec: `ESDocument.get` (`connectors/es.py`, not under
`src/`) walks the given keys into the raw `_source` mapping and returns the
default whenever a step is absent, `None`, or not a mapping — "an accessor
that tolerates absent fields with defaults" (spec section 9, section 4.2). -/
def esGet : JValue → List String → JValue → JValue
  | v, [], d => match v with | .null => d | _ => v
  | .obj fs, k :: rest, d => esGet ((alookup k fs).getD .null) rest d
  | _, _ :: _, d => d

/-- Plain Python `mapping.get(k, default)` on a JSON object (callers in the
source only apply it to mappings). -/
def dictGet (v : JValue) (k : String) (dflt : JValue) : JValue :=
  match v with
  | .obj fs => (alookup k fs).getD dflt
  | _ => dflt

/-- `SYNC_DISABLED` from `connectors/byoc.py`. -/
def SYNC_DISABLED : Int := -1

/-- `JOB_NOT_FOUND_ERROR` from `connectors/byoc.py`. -/
def JOB_NOT_FOUND_ERROR : String := "Couldn't find the job"

/-- `UNKNOWN_ERROR` from `connectors/byoc.py`. -/
def UNKNOWN_ERROR : String := "unknown error"

/-- The `Status` enum of `connectors/byoc.py`. -/
inductive Status where
  | created
  | needs_configuration
  | configured
  | connected
  | error
  | unset
deriving DecidableEq

/-- `Status.value`: the string stored in the index (`UNSET` stores `None`). -/
def Status.value : Status → JValue
  | .created => .str "created"
  | .needs_configuration => .str "needs_configuration"
  | .configured => .str "configured"
  | .connected => .str "connected"
  | .error => .str "error"
  | .unset => .null

/-- The `JobStatus` enum of `connectors/byoc.py`. -/
inductive JobStatus where
  | pending
  | in_progress
  | canceling
  | canceled
  | suspended
  | completed
  | error
  | unset
deriving DecidableEq

/-- `JobStatus.value`. -/
def JobStatus.value : JobStatus → JValue
  | .pending => .str "pending"
  | .in_progress => .str "in_progress"
  | .canceling => .str "canceling"
  | .canceled => .str "canceled"
  | .suspended => .str "suspended"
  | .completed => .str "completed"
  | .error => .str "error"
  | .unset => .null

/-- `JobStatus(raw)`: the enum member whose value is `raw`; `none` models the
`ValueError` Python raises on an unknown value. -/
def JobStatus.ofValue : JValue → Option JobStatus
  | .null => some .unset
  | .str "pending" => some .pending
  | .str "in_progress" => some .in_progress
  | .str "canceling" => some .canceling
  | .str "canceled" => some .canceled
  | .str "suspended" => some .suspended
  | .str "completed" => some .completed
  | .str "error" => some .error
  | _ => none

/-- `status in (JobStatus.ERROR, JobStatus.COMPLETED, JobStatus.CANCELED)`,
the terminal-status test used by `SyncJob.terminated` and `_terminate`. -/
def JobStatus.terminal (st : JobStatus) : Bool :=
  st == .error || st == .completed || st == .canceled

/-- `SyncJob.status`: `JobStatus(self.get("status"))`. -/
def SyncJob.status (src : JValue) : Option JobStatus :=
  JobStatus.ofValue (esGet src ["status"] .null)

/-- `SyncJob.error`: `self.get("error")`. -/
def SyncJob.error (src : JValue) : JValue :=
  esGet src ["error"] .null

/-- `SyncJob.indexed_document_count`: `self.get(..., default=0)`. -/
def SyncJob.indexed_document_count (src : JValue) : JValue :=
  esGet src ["indexed_document_count"] (.num 0)

/-- `SyncJob.deleted_document_count`: `self.get(..., default=0)`. -/
def SyncJob.deleted_document_count (src : JValue) : JValue :=
  esGet src ["deleted_document_count"] (.num 0)

/-- `SyncJob.terminated`: `self.status in (ERROR, COMPLETED, CANCELED)`;
`none` models the `ValueError` of an unparsable status. -/
def SyncJob.terminated (src : JValue) : Option Bool :=
  (SyncJob.status src).map JobStatus.terminal

/-- `SyncJob._terminate(status, error, ingestion_stats, connector_metadata)`:
the patch written to the job document. `now` stands for `iso_utc()`. -/
def SyncJob._terminate (now : String) (status : JobStatus) (error : JValue)
    (ingestion_stats connector_metadata : List (String × JValue)) :
    List (String × JValue) :=
  let doc : List (String × JValue) :=
    [("last_seen", .str now), ("status", status.value), ("error", error)]
  let doc := if status.terminal then aset doc "completed_at" (.str now) else doc
  let doc := if status == .canceled then aset doc "canceled_at" (.str now) else doc
  let doc := aupdate doc ingestion_stats
  if connector_metadata.length > 0 then
    aset doc "metadata" (.obj connector_metadata)
  else doc

/-- `SyncJob.done`. -/
def SyncJob.done (now : String) (stats meta : List (String × JValue)) :
    List (String × JValue) :=
  SyncJob._terminate now .completed .null stats meta

/-- `SyncJob.fail(message)` (the error written is `str(message)`). -/
def SyncJob.fail (now : String) (message : String)
    (stats meta : List (String × JValue)) : List (String × JValue) :=
  SyncJob._terminate now .error (.str message) stats meta

/-- `SyncJob.cancel`. -/
def SyncJob.cancel (now : String) (stats meta : List (String × JValue)) :
    List (String × JValue) :=
  SyncJob._terminate now .canceled .null stats meta

/-- `SyncJob.suspend`. -/
def SyncJob.suspend (now : String) (stats meta : List (String × JValue)) :
    List (String × JValue) :=
  SyncJob._terminate now .suspended .null stats meta

/-- `Connector.sync_now`: `self.get("sync_now", default=False)`. -/
def Connector.sync_now (src : JValue) : JValue :=
  esGet src ["sync_now"] (.bool false)

/-- `Connector.scheduling`: `self.get("scheduling", default={})`. -/
def Connector.scheduling (src : JValue) : JValue :=
  esGet src ["scheduling"] (.obj [])

/-- `Connector.service_type`: `self.get("service_type")`. -/
def Connector.service_type (src : JValue) : JValue :=
  esGet src ["service_type"] .null

/-- `Connector.next_sync()`. `nextRun` stands for `next_run` from
`connectors/utils.py` (not under `src/`), the cron seconds-until-next-firing
computation, applied to `self.scheduling.get("interval")`. -/
def Connector.next_sync (nextRun : JValue → Int) (src : JValue) : Int :=
  if (Connector.sync_now src).truthy then 0
  else if !(dictGet (Connector.scheduling src) "enabled" (.bool false)).truthy then
    SYNC_DISABLED
  else nextRun (dictGet (Connector.scheduling src) "interval" .null)

/-- `Connector.sync_done(job)`: the patch written to the connector document;
`none` models the `ValueError` of a job whose stored status is unparsable,
`job = none` models `sync_done(None)`. `now` stands for `iso_utc()`. -/
def Connector.sync_done (now : String) (job : Option JValue) :
    Option (List (String × JValue)) :=
  let statusOpt := match job with
    | none => some JobStatus.error
    | some src => SyncJob.status src
  match statusOpt with
  | none => none
  | some job_status =>
    let job_error : JValue := match job with
      | none => .str JOB_NOT_FOUND_ERROR
      | some src => SyncJob.error src
    let job_error :=
      if job_error.isNull && (job_status == JobStatus.error) then
        JValue.str UNKNOWN_ERROR
      else job_error
    let connector_status :=
      if job_status == JobStatus.error then Status.error else Status.connected
    let doc : List (String × JValue) :=
      [("last_sync_status", job_status.value), ("last_synced", .str now),
       ("last_sync_error", job_error), ("status", connector_status.value),
       ("error", job_error)]
    let doc := match job with
      | none => doc
      | some src =>
        if (SyncJob.terminated src).getD false then
          doc ++ [("last_indexed_document_count", SyncJob.indexed_document_count src),
                  ("last_deleted_document_count", SyncJob.deleted_document_count src)]
        else doc
    some doc

/-- Modelled from the spec: `DataSourceConfiguration` (`connectors/source.py`,
not under `src/`) wraps the connector's `configuration` mapping of option
descriptors; `is_empty()` holds iff the mapping holds no option (an absent or
non-mapping field yields an empty configuration). -/
def Connector.configurationIsEmpty (src : JValue) : Bool :=
  match esGet src ["configuration"] .null with
  | .obj fields => fields.isEmpty
  | _ => true

/-- The errors `Connector.prepare` can raise. -/
inductive PrepareError where
  | serviceTypeNotConfigured
  | serviceTypeNotSupported (st : JValue)
  | dataSourceError (fqn : JValue)
  | connectorUpdateError
  | keyError

/-- What a completed `Connector.prepare` did: returned early without touching
the index, or wrote the given patch (and reloaded). -/
inductive PrepareOutcome where
  | noop
  | wrote (doc : List (String × JValue))

/-- `config.get("connector_id", "")`. -/
def configuredConnectorId (config : JValue) : JValue :=
  dictGet config "connector_id" (.str "")

/-- `config.get("service_type", "")`. -/
def configuredServiceType (config : JValue) : JValue :=
  dictGet config "service_type" (.str "")

/-- `self.id != configured_connector_id`, negated: a string id equals the
configured value iff that value is the same string. -/
def idMatches (cid : String) (config : JValue) : Bool :=
  match configuredConnectorId config with
  | .str s => s == cid
  | _ => false

/-- `config["sources"]`; `none` models the `KeyError` of a missing key. -/
def sourcesOf (config : JValue) : Option JValue :=
  match config with
  | .obj fs => alookup "sources" fs
  | _ => none

/-- `configured_service_type in config["sources"]` (key membership in the
sources mapping). -/
def sourcesHasKey (sources cst : JValue) : Bool :=
  match sources, cst with
  | .obj fs, .str s => fs.any (fun p => p.1 == s)
  | _, _ => false

/-- `config["sources"][configured_service_type]`. -/
def sourcesLookup (sources cst : JValue) : JValue :=
  match sources, cst with
  | .obj fs, .str s => (alookup s fs).getD .null
  | _, _ => .null

/-- `Connector.prepare(config)`. `cid` is `self.id`; `registry fqn` stands for
`get_source_klass(fqn).get_simple_configuration()` (from `connectors/source.py`,
not under `src/`), with `none` modelling any exception it raises; `updateOk`
models whether `self.index.update` succeeds. The result is the raised error or
the outcome (early return, or the patch written). -/
def Connector.prepare (cid : String) (src config : JValue)
    (registry : JValue → Option JValue) (updateOk : Bool) :
    Except PrepareError PrepareOutcome :=
  if !idMatches cid config then .ok .noop
  else if !(Connector.service_type src).isNull && !Connector.configurationIsEmpty src then
    .ok .noop
  else
    let cst := configuredServiceType config
    let step1 : Except PrepareError (List (String × JValue)) :=
      if (Connector.service_type src).isNull then
        if !cst.truthy then .error .serviceTypeNotConfigured
        else .ok [("service_type", cst)]
      else .ok []
    match step1 with
    | .error e => .error e
    | .ok doc =>
      let step2 : Except PrepareError (List (String × JValue)) :=
        if Connector.configurationIsEmpty src then
          match sourcesOf config with
          | none => .error .keyError
          | some sources =>
            if !sourcesHasKey sources cst then .error (.serviceTypeNotSupported cst)
            else
              let fqn := sourcesLookup sources cst
              match registry fqn with
              | none => .error (.dataSourceError fqn)
              | some simple_configuration =>
                .ok (aset (aset doc "configuration" simple_configuration)
                      "status" Status.needs_configuration.value)
        else .ok doc
      match step2 with
      | .error e => .error e
      | .ok doc =>
        if updateOk then .ok (.wrote doc) else .error .connectorUpdateError

/-- Modelled from the spec: `FilteringValidationState`
(`connectors/filtering/validation.py`, not under `src/`): states `edited`,
`valid`, `invalid` and `unset` (spec section 3), each valued by its name
(`unset` by `None`), mirroring the other status enums. -/
inductive FilteringValidationState where
  | edited
  | valid
  | invalid
  | unset
deriving DecidableEq

/-- The stored value of a validation state. -/
def FilteringValidationState.value : FilteringValidationState → JValue
  | .edited => .str "edited"
  | .valid => .str "valid"
  | .invalid => .str "invalid"
  | .unset => .null

/-- `FilteringValidationState(raw)`; `none` models the `ValueError` on an
unknown value. -/
def FilteringValidationState.ofValue : JValue → Option FilteringValidationState
  | .str "edited" => some .edited
  | .str "valid" => some .valid
  | .str "invalid" => some .invalid
  | .null => some .unset
  | _ => none

/-- `Filter.__init__`: the `validation` attribute —
`filter_.get("validation", {"state": VALID.value, "errors": []})`. A `Filter`
is embedded as the field list of the bundle dictionary it wraps. -/
def Filter.validation (f : List (String × JValue)) : JValue :=
  (alookup "validation" f).getD
    (.obj [("state", FilteringValidationState.valid.value), ("errors", .arr [])])

/-- `Filter.has_validation_state(validation_state)`:
`FilteringValidationState(self.validation["state"]) == validation_state`;
`none` models the exception when `validation` is not a mapping, lacks
`"state"`, or holds an unknown state. -/
def Filter.has_validation_state (f : List (String × JValue))
    (vs : FilteringValidationState) : Option Bool :=
  match Filter.validation f with
  | .obj vfs =>
    match alookup "state" vfs with
    | some v => (FilteringValidationState.ofValue v).map (fun s => s == vs)
    | none => none
  | _ => none

mutual

/-- Deep copy of a JSON value (`copy.deepcopy`): a structural copy sharing no
mutable node with the original. -/
def jDeepcopy : JValue → JValue
  | .null => .null
  | .bool b => .bool b
  | .str s => .str s
  | .num n => .num n
  | .arr xs => .arr (jDeepcopyList xs)
  | .obj fs => .obj (jDeepcopyFields fs)

/-- Deep copy of a JSON array's elements. -/
def jDeepcopyList : List JValue → List JValue
  | [] => []
  | x :: xs => jDeepcopy x :: jDeepcopyList xs

/-- Deep copy of a JSON object's field list (also `deepcopy` of a `Filter`'s
dictionary content). -/
def jDeepcopyFields : List (String × JValue) → List (String × JValue)
  | [] => []
  | (k, v) :: fs => (k, jDeepcopy v) :: jDeepcopyFields fs

end

/-- `Filter.transform_filtering()`: the fixed empty shape when the filter's
dictionary is empty, else a deep copy of it. -/
def Filter.transform_filtering (f : List (String × JValue)) :
    List (String × JValue) :=
  if f.length = 0 then [("advanced_snippet", .obj []), ("rules", .arr [])]
  else jDeepcopyFields f

/-- The recursive `nested_get` closure inside `Features._nested_feature_enabled`. -/
def nested_get : JValue → List String → JValue → JValue
  | .null, _, d => d
  | v, [], _ => v
  | .obj fs, k :: rest, d => nested_get ((alookup k fs).getD .null) rest d
  | _, _ :: _, d => d

/-- `Features.feature_enabled(feature)`: the four known names map to their
nested or flat lookups (default `False`), every other name to `False`. A
`Features` is embedded as the field list of its `features` mapping. -/
def Features.feature_enabled (fs : List (String × JValue)) (feature : String) :
    JValue :=
  if feature = "basic_rules_new" then
    nested_get (.obj fs) ["sync_rules", "basic", "enabled"] (.bool false)
  else if feature = "advanced_rules_new" then
    nested_get (.obj fs) ["sync_rules", "advanced", "enabled"] (.bool false)
  else if feature = "basic_rules_old" then
    (alookup "filtering_rules" fs).getD (.bool false)
  else if feature = "advanced_rules_old" then
    (alookup "filtering_advanced_config" fs).getD (.bool false)
  else .bool false

/-- `Features.sync_rules_enabled()`: `any` over the four feature lookups, in
source order (Python `any` applies truthiness to each value). -/
def Features.sync_rules_enabled (fs : List (String × JValue)) : Bool :=
  (Features.feature_enabled fs "basic_rules_new").truthy
  || (Features.feature_enabled fs "basic_rules_old").truthy
  || (Features.feature_enabled fs "advanced_rules_new").truthy
  || (Features.feature_enabled fs "advanced_rules_old").truthy

/-- `Connector.filtering`: `Filtering(self.get("filtering"))`; the `Filtering`
wrapper holds the stored bundle list (absent field: the empty list). -/
def Connector.filtering (src : JValue) : List JValue :=
  match esGet src ["filtering"] .null with
  | .arr xs => xs
  | _ => []

/-- `Filtering.get_filter(filter_state, domain)`: the first bundle whose
`domain` equals the given one, projected to its `filter_state` slot and
wrapped as a `Filter`; an empty `Filter` when none matches. `none` models the
exceptions of a bundle without a `"domain"` key, a non-mapping bundle, a
matching bundle without the state slot, or a non-mapping slot
(`Filter(None)` is the empty filter). -/
def Filtering.get_filter (bundles : List JValue) (filter_state domain : String) :
    Option (List (String × JValue)) :=
  match bundles with
  | [] => some []
  | b :: rest =>
    match b with
    | .obj fs =>
      match alookup "domain" fs with
      | some dv =>
        if (match dv with | .str s => s == domain | _ => false) then
          match alookup filter_state fs with
          | some (.obj sfs) => some sfs
          | some .null => some []
          | some _ => none
          | none => none
        else Filtering.get_filter rest filter_state domain
      | none => none
    | _ => none

/-- One bundle's update inside `Connector.validate_filtering`: on the
`DEFAULT`-domain bundle, `filter_.get("draft", {"validation": {}})["validation"]
= validation_result.to_dict()` (a mutation that is lost when the `draft` key is
absent, since it hits the temporary default), then, when the verdict is
`valid`, `filter_["active"] = filter_.get("draft")`. `vdict` is
`validation_result.to_dict()`. Other bundles pass through unchanged; `none`
models the exceptions on non-mapping bundles or drafts. -/
def updateBundle (b : JValue) (vstate : FilteringValidationState)
    (vdict : JValue) : Option JValue :=
  match b with
  | .obj fs =>
    if (match (alookup "domain" fs).getD (.str "") with
        | .str s => s == "DEFAULT" | _ => false) then
      match alookup "draft" fs with
      | some (.obj dfs) =>
        let fs := aset fs "draft" (.obj (aset dfs "validation" vdict))
        let fs :=
          if vstate == .valid then aset fs "active" ((alookup "draft" fs).getD .null)
          else fs
        some (.obj fs)
      | some _ => none
      | none =>
        let fs :=
          if vstate == .valid then aset fs "active" .null else fs
        some (.obj fs)
    else some b
  | _ => none

/-- The loop over `self.filtering.to_list()` in `Connector.validate_filtering`. -/
def updateFiltering (bundles : List JValue) (vstate : FilteringValidationState)
    (vdict : JValue) : Option (List JValue) :=
  bundles.mapM (fun b => updateBundle b vstate vdict)

/-- What a completed `Connector.validate_filtering` did: returned before
calling the validator (no write), or wrote the updated `filtering` list. -/
inductive ValidateOutcome where
  | skipped
  | wrote (filtering : List JValue)

/-- `Connector.validate_filtering(validator)`. The validator is abstracted by
its result: `vstate` is `validation_result.state` and `vdict` its `to_dict()`.
`none` models an exception while locating or reading the draft filter. -/
def Connector.validate_filtering (src : JValue)
    (vstate : FilteringValidationState) (vdict : JValue) :
    Option ValidateOutcome :=
  match Filtering.get_filter (Connector.filtering src) "draft" "DEFAULT" with
  | none => none
  | some draft =>
    match Filter.has_validation_state draft .edited with
    | none => none
    | some false => some .skipped
    | some true =>
      match updateFiltering (Connector.filtering src) vstate vdict with
      | none => none
      | some newF => some (.wrote newF)

/-- An item on the Jira adapter's shared `MemQueue`: a document tuple (whose
first component is the formatted document) or the end-of-stream sentinel
string `"FINISHED"`. -/
inductive QItem where
  | item (d : JValue)
  | finished

/-- An event seen by the orchestration in `JiraDataSource.get_docs`: a queue
arrival (FIFO order) or one `self.tasks += 1` increment. -/
inductive QEvent where
  | inc
  | enq (q : QItem)

/-- An attachment dictionary of a Jira issue, holding the fields
`_get_attachments` reads (`id`, `filename`, `created`, `size`). -/
structure Attachment where
  aid : String
  filename : String
  created : String
  size : Int

/-- A Jira project, holding the fields `_get_projects` reads (`name`, `id`)
and the raw project dictionary embedded into the produced document. -/
structure Project where
  name : String
  pid : String
  raw : JValue

/-- A Jira issue, holding the fields `_get_issues` and `_document_task` read:
`key`, the fields used for the document (`project.name`, `updated`,
`issuetype.name`), the raw `fields` dictionary, and
`fields["attachment"]`. -/
structure Issue where
  key : String
  projectName : String
  updated : String
  typeName : String
  fieldsRaw : JValue
  attachments : List Attachment

/-- The document `_get_projects` yields for one project (`ts` stands for the
`iso_utc(...)` timestamp). -/
def projectDoc (ts : String) (p : Project) : JValue :=
  .obj [("_id", .str (p.name ++ "-" ++ p.pid)), ("_timestamp", .str ts),
        ("Type", .str "Project"), ("Project", p.raw)]

/-- The document `_get_issues` yields for one issue. -/
def issueDoc (i : Issue) : JValue :=
  .obj [("_id", .str (i.projectName ++ "-" ++ i.key)),
        ("_timestamp", .str i.updated), ("Type", .str i.typeName),
        ("Issue", i.fieldsRaw)]

/-- The document `_get_attachments` yields for one attachment of an issue. -/
def attachmentDoc (issue_key : String) (a : Attachment) : JValue :=
  .obj [("_id", .str (issue_key ++ "-" ++ a.aid)), ("title", .str a.filename),
        ("type", .str "Attachment"), ("issue", .str issue_key),
        ("_timestamp", .str a.created), ("size", .num a.size)]

/-- The queue trace of one `_grab_content(attachments, issue_key)` producer:
one item per attachment, then exactly one `"FINISHED"` sentinel. -/
def grabContentTrace (attachments : List Attachment) (issue_key : String) :
    List QItem :=
  attachments.map (fun a => QItem.item (attachmentDoc issue_key a))
    ++ [QItem.finished]

/-- The queue trace of the `_project_task` producer: one item per project,
then exactly one `"FINISHED"` sentinel. -/
def projectTraceQ (ts : String) (projects : List Project) : List QItem :=
  projects.map (fun p => QItem.item (projectDoc ts p)) ++ [QItem.finished]

/-- A step of a producer coroutine: enqueue one queue item, or register a new
attachment producer (`await self.fetchers.put(...)` followed by
`self.tasks += 1`, which emits one increment and starts the producer whose
queue trace is given). -/
inductive PEv where
  | enq (q : QItem)
  | spawn (tr : List QItem)

/-- A producer that only enqueues (the registered `_grab_content` coroutines,
and `_project_task`). -/
def toPEv (tr : List QItem) : List PEv :=
  tr.map PEv.enq

/-- The step trace of the `_document_task` producer: per issue, enqueue the
issue document, then register one attachment producer if the issue has
attachments; after the loop, enqueue exactly one `"FINISHED"` sentinel. -/
def documentTrace (issues : List Issue) : List PEv :=
  (issues.flatMap fun i =>
    PEv.enq (QItem.item (issueDoc i)) ::
      (if i.attachments.isEmpty then []
       else [PEv.spawn (grabContentTrace i.attachments i.key)]))
  ++ [PEv.enq QItem.finished]

/-- Modelled from the spec: admissible cooperative interleavings of the
producers through `MemQueue`/`ConcurrentTasks` (`connectors/utils.py`, not
under `src/`; spec sections 4.6 and 5): the queue is FIFO, producers run as
cooperative tasks interleaved in any order, and registering a task emits the
increment before the new producer runs. `Sched ss L` holds when the active
producers `ss` can emit exactly the event sequence `L`. -/
inductive Sched : List (List PEv) → List QEvent → Prop where
  | nil : Sched [] []
  | drop (ss₁ ss₂ : List (List PEv)) (L : List QEvent) :
      Sched (ss₁ ++ ss₂) L → Sched (ss₁ ++ [] :: ss₂) L
  | enq (ss₁ ss₂ : List (List PEv)) (tr : List PEv) (q : QItem) (L : List QEvent) :
      Sched (ss₁ ++ tr :: ss₂) L →
      Sched (ss₁ ++ (PEv.enq q :: tr) :: ss₂) (QEvent.enq q :: L)
  | spawn (ss₁ ss₂ : List (List PEv)) (tr : List PEv) (newTr : List QItem)
      (L : List QEvent) :
      Sched (ss₁ ++ tr :: ss₂ ++ [toPEv newTr]) L →
      Sched (ss₁ ++ (PEv.spawn newTr :: tr) :: ss₂) (QEvent.inc :: L)

/-- An admissible event sequence of `JiraDataSource.get_docs` after its two
initial `self.tasks += 1` increments: any cooperative interleaving of the
`_project_task` producer, the `_document_task` producer, and the attachment
producers the latter registers. -/
def get_docs_run (ts : String) (projects : List Project) (issues : List Issue)
    (L : List QEvent) : Prop :=
  Sched [toPEv (projectTraceQ ts projects), documentTrace issues] L

/-- The result of the consume loop of `get_docs`: the loop exited with
`self.tasks = 0` having yielded `yields` and leaving `leftover` unconsumed, or
the queue ran dry while `self.tasks > 0` (a blocked `queue.get()`). -/
inductive ConsumeResult where
  | finishedRun (yields : List JValue) (leftover : List QEvent)
  | blocked (yields : List JValue)

/-- The consume loop `while self.tasks > 0: _, item = await self.queue.get()`:
a sentinel decrements `self.tasks`, any other item is yielded; an increment
event raises `self.tasks`. The loop exits as soon as the counter reaches 0. -/
def runConsumer : Nat → List QEvent → ConsumeResult
  | 0, rest => .finishedRun [] rest
  | _ + 1, [] => .blocked []
  | t + 1, QEvent.inc :: rest => runConsumer (t + 2) rest
  | t + 1, QEvent.enq QItem.finished :: rest => runConsumer t rest
  | t + 1, QEvent.enq (QItem.item d) :: rest =>
    match runConsumer (t + 1) rest with
    | .finishedRun ys left => .finishedRun (d :: ys) left
    | .blocked ys => .blocked (d :: ys)

/-- The non-sentinel payloads of an event sequence, in arrival order. -/
def payloads (L : List QEvent) : List JValue :=
  L.filterMap (fun e => match e with
    | QEvent.enq (QItem.item d) => some d
    | _ => none)

/-- The `"FINISHED"` sentinels among the queue arrivals of an event
sequence. -/
def countFin (L : List QEvent) : Nat :=
  L.countP (fun e => match e with
    | QEvent.enq QItem.finished => true
    | _ => false)

/-- The `self.tasks += 1` increments of an event sequence (beyond the two
initial ones). -/
def countInc (L : List QEvent) : Nat :=
  L.countP (fun e => match e with
    | QEvent.inc => true
    | _ => false)

/-- The sentinels a queue trace holds. -/
def qFinCount (tr : List QItem) : Nat :=
  tr.countP (fun q => match q with
    | QItem.finished => true
    | _ => false)

/-- The sentinels a producer enqueues itself (not counting the producers it
registers). -/
def ownFins : List PEv → Nat
  | [] => 0
  | PEv.enq QItem.finished :: s => ownFins s + 1
  | _ :: s => ownFins s

/-- All sentinels a producer is responsible for: its own, plus those of the
producers it registers. -/
def totalFins : List PEv → Nat
  | [] => 0
  | PEv.enq QItem.finished :: s => totalFins s + 1
  | PEv.enq (QItem.item _) :: s => totalFins s
  | PEv.spawn tr :: s => totalFins s + qFinCount tr

/-- The producers a producer registers. -/
def totalSpawns : List PEv → Nat
  | [] => 0
  | PEv.spawn _ :: s => totalSpawns s + 1
  | _ :: s => totalSpawns s

/-- Well-formed producer streams: a (suffix of a) producer's step trace whose
last step enqueues the single `"FINISHED"` sentinel, every registered
producer being of the same shape. -/
inductive WFS : List PEv → Prop where
  | last : WFS [PEv.enq QItem.finished]
  | item (d : JValue) (s : List PEv) : WFS s → WFS (PEv.enq (QItem.item d) :: s)
  | spawn (tr : List QItem) (s : List PEv) :
      WFS (toPEv tr) → WFS s → WFS (PEv.spawn tr :: s)

mutual

/-- A deep copy of a JSON value is structurally equal to the original. -/
theorem jDeepcopy_eq : ∀ (v : JValue), jDeepcopy v = v
  | .null => rfl
  | .bool _ => rfl
  | .str _ => rfl
  | .num _ => rfl
  | .arr xs => by rw [jDeepcopy, jDeepcopyList_eq xs]
  | .obj fs => by rw [jDeepcopy, jDeepcopyFields_eq fs]

/-- A deep copy of a JSON array is structurally equal to the original. -/
theorem jDeepcopyList_eq : ∀ (xs : List JValue), jDeepcopyList xs = xs
  | [] => rfl
  | x :: xs => by rw [jDeepcopyList, jDeepcopy_eq x, jDeepcopyList_eq xs]

/-- A deep copy of a field list is structurally equal to the original. -/
theorem jDeepcopyFields_eq : ∀ (fs : List (String × JValue)), jDeepcopyFields fs = fs
  | [] => rfl
  | (k, v) :: fs => by rw [jDeepcopyFields, jDeepcopy_eq v, jDeepcopyFields_eq fs]

end

/-- Claim C1: `next_sync()` returns `0` whenever `sync_now` is true (regardless
of the scheduling field, so `sync_now` wins over disabled scheduling), returns
`SYNC_DISABLED = -1` whenever `sync_now` is false and `scheduling.enabled` is
false or absent (an absent `scheduling` mapping defaults to `{}`), and
otherwise (enabled true) returns the seconds computed by `next_run` from
`scheduling.get("interval")`. -/
theorem connector_next_sync_spec (nextRun : JValue → Int) (src : JValue) :
    (Connector.sync_now src = JValue.bool true →
      Connector.next_sync nextRun src = 0) ∧
    (Connector.sync_now src = JValue.bool false →
      ((dictGet (Connector.scheduling src) "enabled" (JValue.bool false)
          = JValue.bool false →
        Connector.next_sync nextRun src = SYNC_DISABLED) ∧
       (dictGet (Connector.scheduling src) "enabled" (JValue.bool false)
          = JValue.bool true →
        Connector.next_sync nextRun src =
          nextRun (dictGet (Connector.scheduling src) "interval" JValue.null)))) := by
  refine ⟨fun h => ?_, fun h => ⟨fun he => ?_, fun he => ?_⟩⟩
  · simp [Connector.next_sync, h, JValue.truthy]
  · simp [Connector.next_sync, h, he, JValue.truthy]
  · simp [Connector.next_sync, h, he, JValue.truthy]

/-- Witness for C1 at concrete connectors: `sync_now` set, everything absent,
and an enabled schedule. -/
theorem connector_next_sync_spec_witness :
    Connector.next_sync (fun _ => 42) (JValue.obj [("sync_now", JValue.bool true)]) = 0 ∧
    Connector.next_sync (fun _ => 42) (JValue.obj []) = SYNC_DISABLED ∧
    Connector.next_sync (fun _ => 42)
      (JValue.obj [("scheduling",
        JValue.obj [("enabled", JValue.bool true), ("interval", JValue.str "c")])]) = 42 :=
  ⟨(connector_next_sync_spec (fun _ => 42)
      (JValue.obj [("sync_now", JValue.bool true)])).1 rfl,
   ((connector_next_sync_spec (fun _ => 42) (JValue.obj [])).2 rfl).1 rfl,
   ((connector_next_sync_spec (fun _ => 42)
      (JValue.obj [("scheduling",
        JValue.obj [("enabled", JValue.bool true),
                    ("interval", JValue.str "c")])])).2 rfl).2 rfl⟩

/-- Claim C2: `sync_done(None)` writes a patch whose `last_sync_status` is
`error`, whose `last_sync_error` is exactly the string
`"Couldn't find the job"`, and whose `status` is `error`. -/
theorem connector_sync_done_null (now : String) :
    Connector.sync_done now none =
      some [("last_sync_status", JValue.str "error"),
            ("last_synced", JValue.str now),
            ("last_sync_error", JValue.str JOB_NOT_FOUND_ERROR),
            ("status", JValue.str "error"),
            ("error", JValue.str JOB_NOT_FOUND_ERROR)] ∧
    JOB_NOT_FOUND_ERROR = "Couldn't find the job" :=
  ⟨rfl, rfl⟩

/-- Claim C3: for a job whose stored status parses, `sync_done(job)` writes
`last_sync_status = job.status` and `last_sync_error = job.error`, except that
a null `job.error` with an `error` status becomes exactly `"unknown error"`;
the written connector `status` is `error` when `job.status` is `error` and
`connected` otherwise. -/
theorem connector_sync_done_job (now : String) (src : JValue) (st : JobStatus)
    (h : SyncJob.status src = some st) :
    (Connector.sync_done now (some src)).bind (alookup "last_sync_status")
      = some st.value ∧
    (Connector.sync_done now (some src)).bind (alookup "last_sync_error")
      = some (if (SyncJob.error src).isNull && (st == JobStatus.error)
              then JValue.str UNKNOWN_ERROR else SyncJob.error src) ∧
    (Connector.sync_done now (some src)).bind (alookup "status")
      = some (if st == JobStatus.error then Status.error.value
              else Status.connected.value) := by
  refine ⟨?_, ?_, ?_⟩ <;>
  · simp only [Connector.sync_done, h]
    split <;> simp [alookup, apply_ite Status.value]

/-- Witness for C3 at a concrete job: stored status `"error"`, no stored
error, so `last_sync_error` becomes `"unknown error"`. -/
theorem connector_sync_done_job_witness :
    SyncJob.status (JValue.obj [("status", JValue.str "error")])
      = some JobStatus.error ∧
    (Connector.sync_done "T" (some (JValue.obj [("status", JValue.str "error")]))).bind
        (alookup "last_sync_status") = some JobStatus.error.value ∧
    (Connector.sync_done "T" (some (JValue.obj [("status", JValue.str "error")]))).bind
        (alookup "last_sync_error")
      = some (if (SyncJob.error (JValue.obj [("status", JValue.str "error")])).isNull
                  && (JobStatus.error == JobStatus.error)
              then JValue.str UNKNOWN_ERROR
              else SyncJob.error (JValue.obj [("status", JValue.str "error")])) ∧
    (Connector.sync_done "T" (some (JValue.obj [("status", JValue.str "error")]))).bind
        (alookup "status")
      = some (if JobStatus.error == JobStatus.error then Status.error.value
              else Status.connected.value) :=
  ⟨rfl, connector_sync_done_job "T" (JValue.obj [("status", JValue.str "error")])
    JobStatus.error rfl⟩

/-- Claim C7: `transform_filtering()` of the empty filter is exactly
`{advanced_snippet: {}, rules: []}`; of a non-empty filter it is the deep copy
of the filter — a structurally equal dictionary (every key preserved) built
from fresh nodes, so mutating the result never changes the filter. -/
theorem filter_transform_filtering_spec (f : List (String × JValue))
    (hne : f ≠ []) :
    Filter.transform_filtering [] =
      [("advanced_snippet", JValue.obj []), ("rules", JValue.arr [])] ∧
    Filter.transform_filtering f = jDeepcopyFields f ∧
    Filter.transform_filtering f = f ∧
    (∀ k, alookup k (Filter.transform_filtering f) = alookup k f) := by
  have hlen : ¬ f.length = 0 := by
    simpa [List.length_eq_zero] using hne
  have h2 : Filter.transform_filtering f = jDeepcopyFields f := by
    simp [Filter.transform_filtering, hlen]
  have h3 : Filter.transform_filtering f = f := by
    rw [h2, jDeepcopyFields_eq]
  exact ⟨rfl, h2, h3, fun k => by rw [h3]⟩

/-- Witness for C7 at a concrete non-empty filter. -/
theorem filter_transform_filtering_spec_witness :
    [(("rules" : String), JValue.arr [])] ≠ [] ∧
    Filter.transform_filtering [(("rules" : String), JValue.arr [])]
      = [(("rules" : String), JValue.arr [])] :=
  ⟨by simp,
   (filter_transform_filtering_spec [(("rules" : String), JValue.arr [])]
      (by simp)).2.2.1⟩

/-- Reordering the middle disjuncts of a four-way boolean disjunction. -/
theorem bool_or_swap_middle (a b c d : Bool) :
    (a || b || c || d) = (a || c || b || d) := by
  cases a <;> cases b <;> cases c <;> cases d <;> rfl

/-- Claim C8: `sync_rules_enabled()` is the disjunction of `feature_enabled`
at the four names `basic_rules_new` (nested `sync_rules.basic.enabled`,
default false), `advanced_rules_new` (nested `sync_rules.advanced.enabled`,
default false), `basic_rules_old` (flat `filtering_rules`) and
`advanced_rules_old` (flat `filtering_advanced_config`); `feature_enabled`
of every other name is false. -/
theorem features_sync_rules_spec (fs : List (String × JValue)) (name : String)
    (h1 : name ≠ "basic_rules_new") (h2 : name ≠ "advanced_rules_new")
    (h3 : name ≠ "basic_rules_old") (h4 : name ≠ "advanced_rules_old") :
    Features.sync_rules_enabled fs =
      ((Features.feature_enabled fs "basic_rules_new").truthy
       || (Features.feature_enabled fs "advanced_rules_new").truthy
       || (Features.feature_enabled fs "basic_rules_old").truthy
       || (Features.feature_enabled fs "advanced_rules_old").truthy) ∧
    Features.feature_enabled fs "basic_rules_new" =
      nested_get (JValue.obj fs) ["sync_rules", "basic", "enabled"]
        (JValue.bool false) ∧
    Features.feature_enabled fs "advanced_rules_new" =
      nested_get (JValue.obj fs) ["sync_rules", "advanced", "enabled"]
        (JValue.bool false) ∧
    Features.feature_enabled fs "basic_rules_old" =
      (alookup "filtering_rules" fs).getD (JValue.bool false) ∧
    Features.feature_enabled fs "advanced_rules_old" =
      (alookup "filtering_advanced_config" fs).getD (JValue.bool false) ∧
    Features.feature_enabled fs name = JValue.bool false := by
  refine ⟨bool_or_swap_middle _ _ _ _, rfl, rfl, rfl, rfl, ?_⟩
  simp [Features.feature_enabled, h1, h2, h3, h4]

/-- Witness for C8 at the empty feature mapping and the unknown name
`"document_level_security"`. -/
theorem features_sync_rules_spec_witness :
    Features.sync_rules_enabled [] =
      ((Features.feature_enabled [] "basic_rules_new").truthy
       || (Features.feature_enabled [] "advanced_rules_new").truthy
       || (Features.feature_enabled [] "basic_rules_old").truthy
       || (Features.feature_enabled [] "advanced_rules_old").truthy) ∧
    Features.feature_enabled [] "document_level_security" = JValue.bool false :=
  ⟨(features_sync_rules_spec [] "document_level_security"
      (by decide) (by decide) (by decide) (by decide)).1,
   (features_sync_rules_spec [] "document_level_security"
      (by decide) (by decide) (by decide) (by decide)).2.2.2.2.2⟩

/-- Replacing the value under key `k₀` inside a field list leaves presence of
any other key unchanged. -/
theorem anyKey_map_set (d : List (String × JValue)) (k₀ k : String) (v : JValue)
    (h : k₀ ≠ k) :
    (d.map (fun p => if p.1 = k₀ then (k₀, v) else p)).any
        (fun p => decide (p.1 = k))
      = d.any (fun p => decide (p.1 = k)) := by
  induction d with
  | nil => rfl
  | cons p d ih =>
    simp only [List.map_cons, List.any_cons, ih]
    by_cases hp : p.1 = k₀
    · simp [hp, h]
    · simp [hp]

/-- Replacing the value under a present key `k` keeps `k` present. -/
theorem anyKey_map_set_self (d : List (String × JValue)) (k : String) (v : JValue)
    (hmem : d.any (fun p => decide (p.1 = k)) = true) :
    (d.map (fun p => if p.1 = k then (k, v) else p)).any
        (fun p => decide (p.1 = k)) = true := by
  induction d with
  | nil => simp at hmem
  | cons p d ih =>
    simp only [List.any_cons, Bool.or_eq_true] at hmem
    simp only [List.map_cons, List.any_cons, Bool.or_eq_true]
    rcases hmem with hp | hd
    · left
      simp [of_decide_eq_true hp]
    · right
      exact ih hd

/-- Assigning a key other than `k` does not change whether `k` is present. -/
theorem hasKey_aset_of_ne (d : List (String × JValue)) (k₀ : String) (v : JValue)
    (k : String) (h : k₀ ≠ k) : hasKey (aset d k₀ v) k = hasKey d k := by
  unfold hasKey aset
  split
  · exact anyKey_map_set d k₀ k v h
  · simp [List.any_append, h]

/-- Assigning key `k` makes it present. -/
theorem hasKey_aset_self (d : List (String × JValue)) (k : String) (v : JValue) :
    hasKey (aset d k v) k = true := by
  unfold hasKey aset
  split
  · exact anyKey_map_set_self d k v (by assumption)
  · simp [List.any_append]

/-- Merging a patch that does not mention `k` does not change whether `k`
is present. -/
theorem hasKey_aupdate_of_not (d e : List (String × JValue)) (k : String)
    (he : hasKey e k = false) : hasKey (aupdate d e) k = hasKey d k := by
  induction e generalizing d with
  | nil => rfl
  | cons p e ih =>
    simp only [hasKey, List.any_cons, Bool.or_eq_false_iff] at he
    have hne : p.1 ≠ k := by simpa using he.1
    show hasKey (aupdate (aset d p.1 p.2) e) k = hasKey d k
    rw [ih (aset d p.1 p.2) he.2, hasKey_aset_of_ne d p.1 p.2 k hne]

/-- The patch of `_terminate(status, ...)` mentions `completed_at` exactly for
the terminal statuses, when the merged ingestion stats do not mention it. -/
theorem term_hasKey_completed (now : String) (status : JobStatus) (err : JValue)
    (stats meta : List (String × JValue))
    (h1 : hasKey stats "completed_at" = false) :
    hasKey (SyncJob._terminate now status err stats meta) "completed_at"
      = status.terminal := by
  simp only [SyncJob._terminate]
  have step : ∀ d : List (String × JValue),
      hasKey (if meta.length > 0 then aset (aupdate d stats) "metadata" (JValue.obj meta)
              else aupdate d stats) "completed_at" = hasKey d "completed_at" := by
    intro d
    by_cases hm : meta.length > 0
    · rw [if_pos hm, hasKey_aset_of_ne _ _ _ _ (by decide),
        hasKey_aupdate_of_not _ _ _ h1]
    · rw [if_neg hm, hasKey_aupdate_of_not _ _ _ h1]
  rw [step]
  by_cases hc : (status == JobStatus.canceled) = true
  · rw [if_pos hc, hasKey_aset_of_ne _ _ _ _ (by decide)]
    by_cases ht : status.terminal = true
    · rw [if_pos ht, hasKey_aset_self, ht]
    · rw [if_neg ht, eq_false_of_ne_true ht]
      simp [hasKey]
  · rw [if_neg hc]
    by_cases ht : status.terminal = true
    · rw [if_pos ht, hasKey_aset_self, ht]
    · rw [if_neg ht, eq_false_of_ne_true ht]
      simp [hasKey]

/-- The patch of `_terminate(status, ...)` mentions `canceled_at` exactly for
the `canceled` status, when the merged ingestion stats do not mention it. -/
theorem term_hasKey_canceled (now : String) (status : JobStatus) (err : JValue)
    (stats meta : List (String × JValue))
    (h2 : hasKey stats "canceled_at" = false) :
    hasKey (SyncJob._terminate now status err stats meta) "canceled_at"
      = (status == JobStatus.canceled) := by
  simp only [SyncJob._terminate]
  have step : ∀ d : List (String × JValue),
      hasKey (if meta.length > 0 then aset (aupdate d stats) "metadata" (JValue.obj meta)
              else aupdate d stats) "canceled_at" = hasKey d "canceled_at" := by
    intro d
    by_cases hm : meta.length > 0
    · rw [if_pos hm, hasKey_aset_of_ne _ _ _ _ (by decide),
        hasKey_aupdate_of_not _ _ _ h2]
    · rw [if_neg hm, hasKey_aupdate_of_not _ _ _ h2]
  rw [step]
  by_cases hc : (status == JobStatus.canceled) = true
  · rw [if_pos hc, hasKey_aset_self, hc]
  · rw [if_neg hc, eq_false_of_ne_true hc]
    by_cases ht : status.terminal = true
    · rw [if_pos ht, hasKey_aset_of_ne _ _ _ _ (by decide)]
      simp [hasKey]
    · rw [if_neg ht]
      simp [hasKey]

/-- Claim C4: a job is `terminated` iff its status lies in
`{completed, error, canceled}`; and each terminating call (`done`, `fail`,
`cancel`, `suspend`, i.e. `_terminate` at its target status) writes a patch
holding `completed_at` iff that target is terminal and `canceled_at` iff it is
`canceled` — so `cancel` sets both and `suspend` sets neither (for ingestion
stats that do not themselves carry those two keys). -/
theorem syncjob_terminate_spec (src : JValue) (st : JobStatus)
    (now message : String) (stats meta : List (String × JValue))
    (h : SyncJob.status src = some st)
    (h1 : hasKey stats "completed_at" = false)
    (h2 : hasKey stats "canceled_at" = false) :
    SyncJob.terminated src
      = some (st == JobStatus.completed || st == JobStatus.error
              || st == JobStatus.canceled) ∧
    (hasKey (SyncJob.done now stats meta) "completed_at" = true ∧
     hasKey (SyncJob.done now stats meta) "canceled_at" = false) ∧
    (hasKey (SyncJob.fail now message stats meta) "completed_at" = true ∧
     hasKey (SyncJob.fail now message stats meta) "canceled_at" = false) ∧
    (hasKey (SyncJob.cancel now stats meta) "completed_at" = true ∧
     hasKey (SyncJob.cancel now stats meta) "canceled_at" = true) ∧
    (hasKey (SyncJob.suspend now stats meta) "completed_at" = false ∧
     hasKey (SyncJob.suspend now stats meta) "canceled_at" = false) := by
  refine ⟨?_, ⟨?_, ?_⟩, ⟨?_, ?_⟩, ⟨?_, ?_⟩, ?_, ?_⟩
  · rw [SyncJob.terminated, h, Option.map_some']
    cases st <;> rfl
  · rw [SyncJob.done, term_hasKey_completed _ _ _ _ _ h1]; rfl
  · rw [SyncJob.done, term_hasKey_canceled _ _ _ _ _ h2]; rfl
  · rw [SyncJob.fail, term_hasKey_completed _ _ _ _ _ h1]; rfl
  · rw [SyncJob.fail, term_hasKey_canceled _ _ _ _ _ h2]; rfl
  · rw [SyncJob.cancel, term_hasKey_completed _ _ _ _ _ h1]; rfl
  · rw [SyncJob.cancel, term_hasKey_canceled _ _ _ _ _ h2]; rfl
  · rw [SyncJob.suspend, term_hasKey_completed _ _ _ _ _ h1]; rfl
  · rw [SyncJob.suspend, term_hasKey_canceled _ _ _ _ _ h2]; rfl

/-- Witness for C4 at a concrete job (stored status `"canceled"`) and empty
stats and metadata. -/
theorem syncjob_terminate_spec_witness :
    SyncJob.status (JValue.obj [("status", JValue.str "canceled")])
      = some JobStatus.canceled ∧
    hasKey ([] : List (String × JValue)) "completed_at" = false ∧
    SyncJob.terminated (JValue.obj [("status", JValue.str "canceled")])
      = some (JobStatus.canceled == JobStatus.completed
              || JobStatus.canceled == JobStatus.error
              || JobStatus.canceled == JobStatus.canceled) ∧
    hasKey (SyncJob.cancel "T" [] []) "completed_at" = true ∧
    hasKey (SyncJob.cancel "T" [] []) "canceled_at" = true ∧
    hasKey (SyncJob.suspend "T" [] []) "completed_at" = false := by
  have h := syncjob_terminate_spec (JValue.obj [("status", JValue.str "canceled")])
    JobStatus.canceled "T" "m" [] [] rfl rfl rfl
  exact ⟨rfl, rfl, h.1, h.2.2.2.1.1, h.2.2.2.1.2, h.2.2.2.2.1⟩

/-- Claim C6 (amended): `prepare(config)` returns without writing or raising
when the configured `connector_id` differs from the connector's id, and also
when the connector's `service_type` is set and its configuration is non-empty;
when the connector id matches, its configuration is empty, the config carries a
`sources` mapping without the configured service type as a key, and moreover
the connector's `service_type` is set or the configured service type is
non-empty, `prepare` raises `service_type_not_supported` (when both the
connector's `service_type` and the configured one are absent,
`service_type_not_configured` takes precedence). -/
theorem connector_prepare_spec (cid : String) (src config sources : JValue)
    (registry : JValue → Option JValue) (updateOk : Bool) :
    (idMatches cid config = false →
      Connector.prepare cid src config registry updateOk
        = Except.ok PrepareOutcome.noop) ∧
    ((Connector.service_type src).isNull = false →
     Connector.configurationIsEmpty src = false →
      Connector.prepare cid src config registry updateOk
        = Except.ok PrepareOutcome.noop) ∧
    (idMatches cid config = true →
     Connector.configurationIsEmpty src = true →
     sourcesOf config = some sources →
     sourcesHasKey sources (configuredServiceType config) = false →
     ((Connector.service_type src).isNull = false ∨
        (configuredServiceType config).truthy = true) →
      Connector.prepare cid src config registry updateOk
        = Except.error
            (PrepareError.serviceTypeNotSupported (configuredServiceType config))) := by
  refine ⟨fun hid => ?_, fun hst hcfg => ?_, fun hid hcfg hs hkey hd => ?_⟩
  · simp [Connector.prepare, hid]
  · by_cases hidm : idMatches cid config
    · simp [Connector.prepare, hidm, hst, hcfg]
    · simp [Connector.prepare, hidm]
  · by_cases hnull : (Connector.service_type src).isNull
    · rcases hd with hd | hd
      · rw [hnull] at hd
        cases hd
      · simp [Connector.prepare, hid, hnull, hcfg, hs, hkey, hd]
    · simp [Connector.prepare, hid, hnull, hcfg, hs, hkey]

/-- Witness for C6 (amended) at the spec's scenario: sources empty, connector
of the configured id without a service type, configured type `"jira"` — the
call raises `service_type_not_supported`. -/
theorem connector_prepare_spec_witness :
    idMatches "X" (JValue.obj [("connector_id", JValue.str "X"),
        ("service_type", JValue.str "jira"), ("sources", JValue.obj [])]) = true ∧
    Connector.configurationIsEmpty (JValue.obj []) = true ∧
    Connector.prepare "X" (JValue.obj [])
        (JValue.obj [("connector_id", JValue.str "X"),
          ("service_type", JValue.str "jira"), ("sources", JValue.obj [])])
        (fun _ => none) true
      = Except.error (PrepareError.serviceTypeNotSupported
          (configuredServiceType (JValue.obj [("connector_id", JValue.str "X"),
            ("service_type", JValue.str "jira"), ("sources", JValue.obj [])]))) :=
  ⟨rfl, rfl,
   (connector_prepare_spec "X" (JValue.obj [])
      (JValue.obj [("connector_id", JValue.str "X"),
        ("service_type", JValue.str "jira"), ("sources", JValue.obj [])])
      (JValue.obj []) (fun _ => none) true).2.2
     rfl rfl rfl rfl (Or.inr rfl)⟩

/-- Counterexample to C6 as stated: a connector of the configured id with
empty configuration and no `service_type`, a config with `sources = {}` and no
configured service type — the (empty) configured type is not a key of
`sources`, yet `prepare` raises `service_type_not_configured`, not
`service_type_not_supported`. -/
theorem connector_prepare_counterexample :
    Connector.configurationIsEmpty (JValue.obj []) = true ∧
    sourcesHasKey (JValue.obj [])
      (configuredServiceType (JValue.obj [("connector_id", JValue.str "X"),
        ("sources", JValue.obj [])])) = false ∧
    Connector.prepare "X" (JValue.obj [])
        (JValue.obj [("connector_id", JValue.str "X"), ("sources", JValue.obj [])])
        (fun _ => none) true
      = Except.error PrepareError.serviceTypeNotConfigured ∧
    Connector.prepare "X" (JValue.obj [])
        (JValue.obj [("connector_id", JValue.str "X"), ("sources", JValue.obj [])])
        (fun _ => none) true
      ≠ Except.error (PrepareError.serviceTypeNotSupported
          (configuredServiceType (JValue.obj [("connector_id", JValue.str "X"),
            ("sources", JValue.obj [])]))) := by
  refine ⟨rfl, rfl, rfl, ?_⟩
  intro hc
  rw [show Connector.prepare "X" (JValue.obj [])
      (JValue.obj [("connector_id", JValue.str "X"), ("sources", JValue.obj [])])
      (fun _ => none) true
      = Except.error PrepareError.serviceTypeNotConfigured from rfl] at hc
  simp at hc

/-- Claim C9 (amended): for every job argument (including `None`), the patch
of `sync_done` writes the top-level `error` field to the same value as
`last_sync_error`; in particular, when the job's status is not `error` and its
stored error is null, the written `error` field is null. -/
theorem connector_sync_done_error_field (now : String) (job : Option JValue)
    (doc : List (String × JValue))
    (h : Connector.sync_done now job = some doc) :
    alookup "error" doc = alookup "last_sync_error" doc ∧
    (∀ src st, job = some src → SyncJob.status src = some st →
      (st == JobStatus.error) = false → SyncJob.error src = JValue.null →
      alookup "error" doc = some JValue.null) := by
  cases job with
  | none =>
    have hd : doc = [("last_sync_status", JValue.str "error"),
        ("last_synced", JValue.str now),
        ("last_sync_error", JValue.str JOB_NOT_FOUND_ERROR),
        ("status", JValue.str "error"),
        ("error", JValue.str JOB_NOT_FOUND_ERROR)] := by
      have hnone : Connector.sync_done now none
          = some [("last_sync_status", JValue.str "error"),
                  ("last_synced", JValue.str now),
                  ("last_sync_error", JValue.str JOB_NOT_FOUND_ERROR),
                  ("status", JValue.str "error"),
                  ("error", JValue.str JOB_NOT_FOUND_ERROR)] := rfl
      rw [hnone] at h
      exact (Option.some.inj h).symm
    subst hd
    exact ⟨rfl, fun src st hj => by cases hj⟩
  | some src =>
    cases hst : SyncJob.status src with
    | none =>
      rw [Connector.sync_done] at h
      simp only [hst] at h
      cases h
    | some st =>
      simp only [Connector.sync_done, hst] at h
      split at h <;>
      · rw [← Option.some.inj h]
        refine ⟨by simp [alookup], ?_⟩
        intro src' st' hj hst' hne hnull
        cases hj
        rw [hst] at hst'
        cases Option.some.inj hst'
        simp [alookup, hnull, JValue.isNull, hne]

/-- Witness for C9 (amended) at a concrete job with status `"completed"` and
no stored error: the written `error` equals `last_sync_error` and is null. -/
theorem connector_sync_done_error_field_witness :
    Connector.sync_done "T" (some (JValue.obj [("status", JValue.str "completed")]))
      = some [("last_sync_status", JValue.str "completed"),
              ("last_synced", JValue.str "T"),
              ("last_sync_error", JValue.null),
              ("status", JValue.str "connected"),
              ("error", JValue.null),
              ("last_indexed_document_count", JValue.num 0),
              ("last_deleted_document_count", JValue.num 0)] ∧
    alookup "error" [("last_sync_status", JValue.str "completed"),
              ("last_synced", JValue.str "T"),
              ("last_sync_error", JValue.null),
              ("status", JValue.str "connected"),
              ("error", JValue.null),
              ("last_indexed_document_count", JValue.num 0),
              ("last_deleted_document_count", JValue.num 0)]
      = alookup "last_sync_error" [("last_sync_status", JValue.str "completed"),
              ("last_synced", JValue.str "T"),
              ("last_sync_error", JValue.null),
              ("status", JValue.str "connected"),
              ("error", JValue.null),
              ("last_indexed_document_count", JValue.num 0),
              ("last_deleted_document_count", JValue.num 0)] ∧
    alookup "error" [("last_sync_status", JValue.str "completed"),
              ("last_synced", JValue.str "T"),
              ("last_sync_error", JValue.null),
              ("status", JValue.str "connected"),
              ("error", JValue.null),
              ("last_indexed_document_count", JValue.num 0),
              ("last_deleted_document_count", JValue.num 0)]
      = some JValue.null := by
  have h := connector_sync_done_error_field "T"
    (some (JValue.obj [("status", JValue.str "completed")]))
    [("last_sync_status", JValue.str "completed"),
     ("last_synced", JValue.str "T"),
     ("last_sync_error", JValue.null),
     ("status", JValue.str "connected"),
     ("error", JValue.null),
     ("last_indexed_document_count", JValue.num 0),
     ("last_deleted_document_count", JValue.num 0)] rfl
  exact ⟨rfl, h.1,
    h.2 (JValue.obj [("status", JValue.str "completed")]) JobStatus.completed
      rfl rfl rfl rfl⟩

/-- Counterexample to C9 as stated: a job with status `"completed"` but a
non-null stored error `"boom"` — `sync_done` copies `"boom"` into the
connector's `error` field instead of clearing it. -/
theorem connector_sync_done_error_counterexample :
    Connector.sync_done "T"
        (some (JValue.obj [("status", JValue.str "completed"),
                           ("error", JValue.str "boom")]))
      = some [("last_sync_status", JValue.str "completed"),
              ("last_synced", JValue.str "T"),
              ("last_sync_error", JValue.str "boom"),
              ("status", JValue.str "connected"),
              ("error", JValue.str "boom"),
              ("last_indexed_document_count", JValue.num 0),
              ("last_deleted_document_count", JValue.num 0)] ∧
    alookup "error" [("last_sync_status", JValue.str "completed"),
              ("last_synced", JValue.str "T"),
              ("last_sync_error", JValue.str "boom"),
              ("status", JValue.str "connected"),
              ("error", JValue.str "boom"),
              ("last_indexed_document_count", JValue.num 0),
              ("last_deleted_document_count", JValue.num 0)]
      = some (JValue.str "boom") ∧
    JValue.str "boom" ≠ JValue.null := by
  refine ⟨rfl, rfl, ?_⟩
  intro hc
  cases hc

/-- Claim C10: a filter bundle without a `"validation"` key gets the default
validation `{state: "valid", errors: []}`, hence `has_validation_state(EDITED)`
is false for it; and `validate_filtering` on a connector whose default-domain
draft lacks a validation block returns before reaching the validator, calling
no validator and performing no write. -/
theorem filter_default_validation_spec (bundle : List (String × JValue))
    (src : JValue) (draft : List (String × JValue))
    (vstate : FilteringValidationState) (vdict : JValue)
    (hb : alookup "validation" bundle = none)
    (hd : Filtering.get_filter (Connector.filtering src) "draft" "DEFAULT"
      = some draft)
    (hv : alookup "validation" draft = none) :
    Filter.validation bundle =
      JValue.obj [("state", JValue.str "valid"), ("errors", JValue.arr [])] ∧
    Filter.has_validation_state bundle FilteringValidationState.edited
      = some false ∧
    Connector.validate_filtering src vstate vdict
      = some ValidateOutcome.skipped := by
  have h2gen : ∀ g : List (String × JValue), alookup "validation" g = none →
      Filter.has_validation_state g FilteringValidationState.edited
        = some false := by
    intro g hg
    simp [Filter.has_validation_state, Filter.validation, hg, alookup,
      FilteringValidationState.ofValue, FilteringValidationState.value]
  refine ⟨by simp [Filter.validation, hb, FilteringValidationState.value],
    h2gen bundle hb, ?_⟩
  simp [Connector.validate_filtering, hd, h2gen draft hv]

/-- Witness for C10 at a concrete connector whose default-domain draft is the
empty dictionary (no validation block). -/
theorem filter_default_validation_spec_witness :
    alookup "validation" ([] : List (String × JValue)) = none ∧
    Filtering.get_filter
        (Connector.filtering (JValue.obj [("filtering", JValue.arr
          [JValue.obj [("domain", JValue.str "DEFAULT"),
                       ("draft", JValue.obj [])]])]))
        "draft" "DEFAULT" = some [] ∧
    Filter.has_validation_state ([] : List (String × JValue))
        FilteringValidationState.edited = some false ∧
    Connector.validate_filtering
        (JValue.obj [("filtering", JValue.arr
          [JValue.obj [("domain", JValue.str "DEFAULT"),
                       ("draft", JValue.obj [])]])])
        FilteringValidationState.valid JValue.null
      = some ValidateOutcome.skipped := by
  have h := filter_default_validation_spec []
    (JValue.obj [("filtering", JValue.arr
      [JValue.obj [("domain", JValue.str "DEFAULT"), ("draft", JValue.obj [])]])])
    [] FilteringValidationState.valid JValue.null rfl rfl rfl
  exact ⟨rfl, rfl, h.2.1, h.2.2⟩

/-- A well-formed producer stream enqueues exactly one sentinel itself. -/
theorem WFS_ownFins {s : List PEv} (h : WFS s) : ownFins s = 1 := by
  induction h with
  | last => rfl
  | item d s _ ih => simpa [ownFins] using ih
  | spawn tr s _ _ _ ih => simpa [ownFins] using ih

/-- `totalFins` of a pure enqueue stream counts its trace's sentinels. -/
theorem totalFins_toPEv (tr : List QItem) : totalFins (toPEv tr) = qFinCount tr := by
  induction tr with
  | nil => rfl
  | cons q tr ih =>
    cases q <;> simp [toPEv, totalFins, qFinCount, List.countP_cons] at * <;> omega

/-- A pure enqueue stream registers no producer. -/
theorem totalSpawns_toPEv (tr : List QItem) : totalSpawns (toPEv tr) = 0 := by
  induction tr with
  | nil => rfl
  | cons q tr ih => cases q <;> simpa [toPEv, totalSpawns] using ih

/-- Summing a stream measure over a list with one stream inserted. -/
theorem sum_map_insert_middle (f : List PEv → Nat) (ss₁ ss₂ : List (List PEv))
    (x : List PEv) :
    ((ss₁ ++ x :: ss₂).map f).sum = f x + ((ss₁ ++ ss₂).map f).sum := by
  simp [List.map_append, List.sum_append]
  omega

/-- Summing a stream measure over a list with one stream appended. -/
theorem sum_map_append_one (f : List PEv → Nat) (ss : List (List PEv))
    (x : List PEv) :
    ((ss ++ [x]).map f).sum = (ss.map f).sum + f x := by
  simp [List.map_append, List.sum_append]

/-- Conservation over a schedule: the emitted sentinels are exactly those the
remaining producers are responsible for, and the emitted increments exactly
their registrations. -/
theorem sched_counts (ss : List (List PEv)) (L : List QEvent) (hs : Sched ss L) :
    countFin L = (ss.map totalFins).sum ∧
    countInc L = (ss.map totalSpawns).sum := by
  induction hs with
  | nil => exact ⟨rfl, rfl⟩
  | drop ss₁ ss₂ L hs ih =>
    rw [sum_map_insert_middle, sum_map_insert_middle]
    simpa [totalFins, totalSpawns] using ih
  | enq ss₁ ss₂ tr q L hs ih =>
    rw [sum_map_insert_middle, sum_map_insert_middle]
    rw [sum_map_insert_middle, sum_map_insert_middle] at ih
    cases q <;>
      simp [countFin, countInc, List.countP_cons, totalFins, totalSpawns] at * <;>
      omega
  | spawn ss₁ ss₂ tr newTr L hs ih =>
    rw [sum_map_insert_middle, sum_map_insert_middle]
    rw [sum_map_append_one, sum_map_append_one, sum_map_insert_middle,
      sum_map_insert_middle, totalFins_toPEv, totalSpawns_toPEv] at ih
    simp [countFin, countInc, List.countP_cons, totalFins, totalSpawns] at *
    omega

/-- Consuming a sentinel decrements the counter. -/
theorem runConsumer_fin (t : Nat) (rest : List QEvent) :
    runConsumer (t + 1) (QEvent.enq QItem.finished :: rest) = runConsumer t rest :=
  rfl

/-- An increment raises the counter. -/
theorem runConsumer_inc (t : Nat) (rest : List QEvent) :
    runConsumer (t + 1) (QEvent.inc :: rest) = runConsumer (t + 2) rest :=
  rfl

/-- A non-sentinel item is yielded and consumption continues. -/
theorem runConsumer_item (t : Nat) (d : JValue) (rest : List QEvent)
    (ys : List JValue) (left : List QEvent)
    (h : runConsumer (t + 1) rest = ConsumeResult.finishedRun ys left) :
    runConsumer (t + 1) (QEvent.enq (QItem.item d) :: rest)
      = ConsumeResult.finishedRun (d :: ys) left := by
  rw [runConsumer, h]

/-- The heart of claim C5: from any state whose active producer streams are
each exhausted or well-formed, with the pending counter at the number of
sentinels those streams will still enqueue themselves, the consume loop
terminates exactly with the last event, consuming everything and yielding
exactly the non-sentinel items. -/
theorem sched_consume : ∀ (ss : List (List PEv)) (L : List QEvent),
    Sched ss L → (∀ s ∈ ss, s = [] ∨ WFS s) →
    runConsumer ((ss.map ownFins).sum) L
      = ConsumeResult.finishedRun (payloads L) [] := by
  intro ss L hs
  induction hs with
  | nil => intro _; rfl
  | drop ss₁ ss₂ L hs ih =>
    intro hwf
    have hwf' : ∀ s ∈ ss₁ ++ ss₂, s = [] ∨ WFS s := by
      intro s hsm
      rcases List.mem_append.1 hsm with h1 | h2
      · exact hwf s (List.mem_append.2 (Or.inl h1))
      · exact hwf s (List.mem_append.2 (Or.inr (List.mem_cons.2 (Or.inr h2))))
    have key := ih hwf'
    rw [sum_map_insert_middle]
    simpa [ownFins] using key
  | enq ss₁ ss₂ tr q L hs ih =>
    intro hwf
    have hw : WFS (PEv.enq q :: tr) := by
      rcases hwf (PEv.enq q :: tr)
          (List.mem_append.2 (Or.inr (List.mem_cons.2 (Or.inl rfl)))) with h1 | h1
      · cases h1
      · exact h1
    cases q with
    | finished =>
      have htr : tr = [] := by cases hw with | last => rfl
      subst htr
      have hwf' : ∀ s ∈ ss₁ ++ [] :: ss₂, s = [] ∨ WFS s := by
        intro s hsm
        rcases List.mem_append.1 hsm with h1 | h2
        · exact hwf s (List.mem_append.2 (Or.inl h1))
        · rcases List.mem_cons.1 h2 with rfl | h3
          · exact Or.inl rfl
          · exact hwf s (List.mem_append.2 (Or.inr (List.mem_cons.2 (Or.inr h3))))
      have key := ih hwf'
      rw [sum_map_insert_middle] at key ⊢
      have hone : ownFins [PEv.enq QItem.finished] = 1 := rfl
      have hzero : ownFins ([] : List PEv) = 0 := rfl
      rw [hone, Nat.add_comm 1 (((ss₁ ++ ss₂).map ownFins).sum), runConsumer_fin]
      rw [hzero, Nat.zero_add] at key
      simpa [payloads] using key
    | item d =>
      have hwtr : WFS tr := by cases hw with | item _ _ h => exact h
      have hwf' : ∀ s ∈ ss₁ ++ tr :: ss₂, s = [] ∨ WFS s := by
        intro s hsm
        rcases List.mem_append.1 hsm with h1 | h2
        · exact hwf s (List.mem_append.2 (Or.inl h1))
        · rcases List.mem_cons.1 h2 with rfl | h3
          · exact Or.inr hwtr
          · exact hwf s (List.mem_append.2 (Or.inr (List.mem_cons.2 (Or.inr h3))))
      have key := ih hwf'
      rw [sum_map_insert_middle] at key ⊢
      have hofs : ownFins (PEv.enq (QItem.item d) :: tr) = ownFins tr := rfl
      rw [hofs]
      rw [WFS_ownFins hwtr] at key ⊢
      rw [Nat.add_comm 1 (((ss₁ ++ ss₂).map ownFins).sum)] at key ⊢
      rw [runConsumer_item _ d L (payloads L) [] key]
      simp [payloads]
  | spawn ss₁ ss₂ tr newTr L hs ih =>
    intro hwf
    have hw : WFS (PEv.spawn newTr :: tr) := by
      rcases hwf (PEv.spawn newTr :: tr)
          (List.mem_append.2 (Or.inr (List.mem_cons.2 (Or.inl rfl)))) with h1 | h1
      · cases h1
      · exact h1
    have hwchild : WFS (toPEv newTr) := by
      cases hw with | spawn _ _ hc _ => exact hc
    have hwtr : WFS tr := by
      cases hw with | spawn _ _ _ ht => exact ht
    have hwf' : ∀ s ∈ ss₁ ++ tr :: ss₂ ++ [toPEv newTr], s = [] ∨ WFS s := by
      intro s hsm
      rcases List.mem_append.1 hsm with h1 | h2
      · rcases List.mem_append.1 h1 with h3 | h4
        · exact hwf s (List.mem_append.2 (Or.inl h3))
        · rcases List.mem_cons.1 h4 with rfl | h5
          · exact Or.inr hwtr
          · exact hwf s (List.mem_append.2 (Or.inr (List.mem_cons.2 (Or.inr h5))))
      · rw [List.mem_singleton.1 h2]
        exact Or.inr hwchild
    have key := ih hwf'
    rw [sum_map_append_one, sum_map_insert_middle, WFS_ownFins hwtr,
      WFS_ownFins hwchild] at key
    rw [sum_map_insert_middle]
    have hofs : ownFins (PEv.spawn newTr :: tr) = ownFins tr := rfl
    rw [hofs, WFS_ownFins hwtr]
    rw [Nat.add_comm 1 (((ss₁ ++ ss₂).map ownFins).sum), runConsumer_inc]
    have harith : 1 + ((ss₁ ++ ss₂).map ownFins).sum + 1
        = ((ss₁ ++ ss₂).map ownFins).sum + 2 := by omega
    rw [harith] at key
    simpa [payloads] using key

/-- A trace of items followed by one sentinel holds exactly one sentinel. -/
theorem qFinCount_map_item_fin {α : Type} (xs : List α) (f : α → JValue) :
    qFinCount (xs.map (fun a => QItem.item (f a)) ++ [QItem.finished]) = 1 := by
  induction xs with
  | nil => rfl
  | cons a xs ih =>
    rw [← ih]
    simp [qFinCount, List.countP_cons]

/-- A pure enqueue stream of items followed by one sentinel is well formed. -/
theorem WFS_map_item_fin {α : Type} (xs : List α) (f : α → JValue) :
    WFS (toPEv (xs.map (fun a => QItem.item (f a)) ++ [QItem.finished])) := by
  induction xs with
  | nil => exact WFS.last
  | cons a xs ih =>
    have hshape : toPEv (((a :: xs).map (fun a => QItem.item (f a)))
          ++ [QItem.finished])
        = PEv.enq (QItem.item (f a))
          :: toPEv ((xs.map (fun a => QItem.item (f a))) ++ [QItem.finished]) := by
      simp [toPEv]
    rw [hshape]
    exact WFS.item _ _ ih

/-- The `_project_task` stream is well formed. -/
theorem WFS_projectTrace (ts : String) (projects : List Project) :
    WFS (toPEv (projectTraceQ ts projects)) :=
  WFS_map_item_fin projects (projectDoc ts)

/-- Each `_grab_content` stream is well formed. -/
theorem WFS_grabContent (attachments : List Attachment) (key : String) :
    WFS (toPEv (grabContentTrace attachments key)) :=
  WFS_map_item_fin attachments (attachmentDoc key)

/-- The head shape of the `_document_task` stream. -/
theorem documentTrace_cons (i : Issue) (rest : List Issue) :
    documentTrace (i :: rest)
      = PEv.enq (QItem.item (issueDoc i))
        :: ((if i.attachments.isEmpty then []
             else [PEv.spawn (grabContentTrace i.attachments i.key)])
            ++ documentTrace rest) := by
  simp [documentTrace, List.flatMap_cons, List.append_assoc]

/-- The `_document_task` stream is well formed. -/
theorem WFS_documentTrace (issues : List Issue) : WFS (documentTrace issues) := by
  induction issues with
  | nil => exact WFS.last
  | cons i rest ih =>
    rw [documentTrace_cons]
    by_cases ha : i.attachments.isEmpty
    · rw [if_pos ha, List.nil_append]
      exact WFS.item _ _ ih
    · rw [if_neg ha, List.singleton_append]
      exact WFS.item _ _ (WFS.spawn _ _ (WFS_grabContent _ _) ih)

/-- The `_document_task` stream registers one attachment producer per issue
with attachments. -/
theorem totalSpawns_documentTrace (issues : List Issue) :
    totalSpawns (documentTrace issues)
      = (issues.filter (fun i => !i.attachments.isEmpty)).length := by
  induction issues with
  | nil => rfl
  | cons i rest ih =>
    rw [documentTrace_cons]
    by_cases ha : i.attachments.isEmpty
    · rw [if_pos ha, List.nil_append]
      simpa [totalSpawns, List.filter_cons, ha] using ih
    · rw [if_neg ha, List.singleton_append]
      simpa [totalSpawns, List.filter_cons, ha] using ih

/-- The sentinels the `_document_task` stream is responsible for: its own plus
one per registered attachment producer. -/
theorem totalFins_documentTrace (issues : List Issue) :
    totalFins (documentTrace issues)
      = 1 + (issues.filter (fun i => !i.attachments.isEmpty)).length := by
  induction issues with
  | nil => rfl
  | cons i rest ih =>
    rw [documentTrace_cons]
    by_cases ha : i.attachments.isEmpty
    · rw [if_pos ha, List.nil_append]
      simpa [totalFins, List.filter_cons, ha] using ih
    · rw [if_neg ha, List.singleton_append]
      have hone : qFinCount (grabContentTrace i.attachments i.key) = 1 :=
        qFinCount_map_item_fin i.attachments (attachmentDoc i.key)
      simp [totalFins, List.filter_cons, ha, hone, ih]
      omega

/-- The project producer enqueues exactly one sentinel. -/
theorem qFinCount_projectTrace (ts : String) (projects : List Project) :
    qFinCount (projectTraceQ ts projects) = 1 :=
  qFinCount_map_item_fin projects (projectDoc ts)

/-- Claim C5: over every admissible cooperative interleaving of
`JiraDataSource.get_docs` (the two initial `self.tasks += 1` increments give
the consume loop its starting counter 2), each started producer enqueues
exactly one `"FINISHED"` sentinel, the total of the pending-producer counter's
increments (`2 + countInc L`) equals the number of started producers
(projects producer, issues producer, and one per issue with attachments),
which also equals the number of sentinels enqueued, and the consume loop
terminates exactly with the last event, consuming the whole stream and
yielding precisely the non-sentinel items. -/
theorem jira_get_docs_pipeline (ts : String) (projects : List Project)
    (issues : List Issue) (L : List QEvent)
    (h : get_docs_run ts projects issues L) :
    runConsumer 2 L = ConsumeResult.finishedRun (payloads L) [] ∧
    countFin L
      = 2 + (issues.filter (fun i => !i.attachments.isEmpty)).length ∧
    2 + countInc L = countFin L ∧
    qFinCount (projectTraceQ ts projects) = 1 ∧
    ownFins (documentTrace issues) = 1 ∧
    (∀ i ∈ issues, qFinCount (grabContentTrace i.attachments i.key) = 1) := by
  have hwf : ∀ s ∈ [toPEv (projectTraceQ ts projects), documentTrace issues],
      s = [] ∨ WFS s := by
    intro s hsm
    rcases List.mem_cons.1 hsm with rfl | hsm2
    · exact Or.inr (WFS_projectTrace ts projects)
    · rcases List.mem_cons.1 hsm2 with rfl | hsm3
      · exact Or.inr (WFS_documentTrace issues)
      · cases hsm3
  have hmain := sched_consume _ _ h hwf
  have hsum : (([toPEv (projectTraceQ ts projects),
      documentTrace issues]).map ownFins).sum = 2 := by
    simp [WFS_ownFins (WFS_projectTrace ts projects),
      WFS_ownFins (WFS_documentTrace issues)]
  rw [hsum] at hmain
  have hcounts := sched_counts _ _ h
  have hfin : countFin L
      = 2 + (issues.filter (fun i => !i.attachments.isEmpty)).length := by
    rw [hcounts.1]
    simp only [List.map_cons, List.map_nil, List.sum_cons, List.sum_nil]
    rw [totalFins_toPEv, qFinCount_projectTrace, totalFins_documentTrace]
    omega
  refine ⟨hmain, hfin, ?_, qFinCount_projectTrace ts projects,
    WFS_ownFins (WFS_documentTrace issues),
    fun i _ => qFinCount_map_item_fin i.attachments (attachmentDoc i.key)⟩
  rw [hcounts.2, hfin]
  simp only [List.map_cons, List.map_nil, List.sum_cons, List.sum_nil]
  rw [totalSpawns_toPEv, totalSpawns_documentTrace]
  omega

/-- Witness for C5: no projects, no issues, and the sequential schedule in
which the project producer finishes first. -/
theorem jira_get_docs_pipeline_witness :
    get_docs_run "t" [] []
      [QEvent.enq QItem.finished, QEvent.enq QItem.finished] ∧
    runConsumer 2 [QEvent.enq QItem.finished, QEvent.enq QItem.finished]
      = ConsumeResult.finishedRun
          (payloads [QEvent.enq QItem.finished, QEvent.enq QItem.finished]) [] ∧
    countFin [QEvent.enq QItem.finished, QEvent.enq QItem.finished]
      = 2 + ((List.filter (fun i => !i.attachments.isEmpty)
          ([] : List Issue)).length) := by
  have hrun : get_docs_run "t" [] []
      [QEvent.enq QItem.finished, QEvent.enq QItem.finished] :=
    Sched.enq [] [[PEv.enq QItem.finished]] [] QItem.finished
      [QEvent.enq QItem.finished]
      (Sched.drop [] [[PEv.enq QItem.finished]] [QEvent.enq QItem.finished]
        (Sched.enq [] [] [] QItem.finished []
          (Sched.drop [] [] [] Sched.nil)))
  have h := jira_get_docs_pipeline "t" [] [] _ hrun
  exact ⟨hrun, h.1, h.2.1⟩
